import Mathlib

/-!
Shallow embedding of the analytics pipeline in `가격 비교 분석2/build_outputs.py`.

Conventions used throughout:
* pandas/NumPy `NaN` (which the source uses as its null marker) is modelled as
  `Option.none`; a present value is `some q` with `q : ℚ`.
* floating-point numbers are modelled as exact rationals `ℚ`;
* the two transcendental functions the source applies (`np.log` in
  `log_unit_price`, `np.sqrt` inside the standard deviation and the
  `1/sqrt(rank)` weight) are taken as explicit function parameters
  `L S : ℚ → ℚ` of the definitions that need them, so every statement is
  proved for an arbitrary interpretation of them;
* the statistics delegated to `scipy` (`spearmanr`, `kendalltau`,
  `linregress`) are taken as a function parameter of the correlation-table
  builder, since no claim depends on their values.
-/

set_option allowUnsafeReducibility true

attribute [local semireducible] Rat.mul Rat.add Rat.sub Rat.inv

namespace BuildOutputs

/-- Input row of the pipeline after CSV loading and the numeric coercions of
`main` (lines 112-115 of `build_outputs.py`): `price` carries the result of
`pd.to_numeric(str.replace(",",""), errors="coerce")` and `page_rank` the
result of `pd.to_numeric(..., errors="coerce")`; a failed coercion or a
missing cell is `none`. -/
structure RawRow where
  week : String
  category1 : Option String
  category2 : Option String
  brand : Option String
  productName : Option String
  price : Option ℚ
  pageRank : Option ℚ
deriving Repr, DecidableEq

/-! ### Text parser (`extract_sheets_per_unit`, `extract_units`) -/

/-- Numeric value of a list of decimal digit characters. -/
def digitsVal (l : List Char) : ℕ :=
  l.foldl (fun a c => 10 * a + (c.toNat - 48)) 0

/-- Try to match the regex `(\d+)\s*u` at the head of `l` (greedy digits,
then whitespace, then the single character `u`), returning the digit group.
Backtracking inside `\d+` can never help for this pattern shape, because a
shortened digit run is followed by a digit, which is neither whitespace nor
the (non-digit) unit character — so the greedy parse is exact. -/
def matchNumThen (u : Char) (l : List Char) : Option ℕ :=
  let ds := l.takeWhile (·.isDigit)
  let rest := l.dropWhile (·.isDigit)
  if ds.isEmpty then none
  else
    match rest.dropWhile (·.isWhitespace) with
    | c :: _ => if c = u then some (digitsVal ds) else none
    | [] => none

/-- `re.search` for the pattern `(\d+)\s*u`: try each start position from the
left, first success wins (leftmost-match semantics). -/
def searchNumThen (u : Char) : List Char → Option ℕ
  | [] => none
  | c :: rest =>
    match matchNumThen u (c :: rest) with
    | some n => some n
    | none => searchNumThen u rest

/-- `re.search` for the pattern `[xX]\s*(\d+)` (line 62 of the source). -/
def searchXNum : List Char → Option ℕ
  | [] => none
  | c :: rest =>
    if c = 'x' ∨ c = 'X' then
      let ds := (rest.dropWhile (·.isWhitespace)).takeWhile (·.isDigit)
      if ds.isEmpty then searchXNum rest else some (digitsVal ds)
    else searchXNum rest

/-- `extract_sheets_per_unit` (lines 51-55): first `(\d+)\s*매` match, else
null. The source returns the digits as a float; we keep the natural number. -/
def extract_sheets_per_unit (name : Option String) : Option ℕ :=
  name.bind fun s => searchNumThen '매' s.toList

/-- `extract_units` (lines 58-66): the patterns `(\d+)\s*개`, `(\d+)\s*팩`,
`[xX]\s*(\d+)` tried in this order; the first match wins; default 1. -/
def extract_units (name : Option String) : ℕ :=
  match name with
  | none => 1
  | some s =>
    match searchNumThen '개' s.toList with
    | some n => n
    | none =>
      match searchNumThen '팩' s.toList with
      | some n => n
      | none => (searchXNum s.toList).getD 1

/-! ### Normalizer (per-row derived fields, lines 112-135) -/

/-- pandas `.str.strip()`: remove leading and trailing whitespace. -/
def stripWS (s : String) : String :=
  String.mk (((s.toList.dropWhile (·.isWhitespace)).reverse.dropWhile (·.isWhitespace)).reverse)

/-- `normalize_category` (lines 69-75): trimmed `category2`, falling back to
trimmed `category1` when empty; an empty result is null. -/
def normalize_category (r : RawRow) : Option String :=
  let c2 := stripWS (r.category2.getD "")
  let c1 := stripWS (r.category1.getD "")
  let g := if c2 = "" then c1 else c2
  if g = "" then none else some g

/-- `df["brand"].fillna("Unknown")` (line 115). -/
def brandName (r : RawRow) : String := r.brand.getD "Unknown"

def sheetsPerUnit (r : RawRow) : Option ℕ := extract_sheets_per_unit r.productName

def unitsOf (r : RawRow) : ℕ := extract_units r.productName

/-- `total_sheets = sheets_per_unit * units` (line 121); NaN propagates. -/
def totalSheets (r : RawRow) : Option ℚ :=
  (sheetsPerUnit r).map fun s => (s : ℚ) * (unitsOf r : ℚ)

/-- `has_sheets` (line 122). -/
def hasSheets (r : RawRow) : Bool := (sheetsPerUnit r).isSome

/-- `is_unrealistic_sheets` (lines 123-125): total present and outside
`[10, 1000]`. -/
def isUnrealisticSheets (r : RawRow) : Bool :=
  match totalSheets r with
  | some t => decide (t < 10 ∨ 1000 < t)
  | none => false

/-- `is_valid_sheets` (lines 126-128): total present, not unrealistic, and
positive. -/
def isValidSheets (r : RawRow) : Bool :=
  match totalSheets r with
  | some t => !isUnrealisticSheets r && decide (0 < t)
  | none => false

/-- `unit_price = np.where(total_sheets > 0, price / total_sheets, nan)`
(line 130): NaN in `total_sheets` makes the condition false, NaN in `price`
makes the quotient NaN. -/
def unitPrice (r : RawRow) : Option ℚ :=
  match totalSheets r, r.price with
  | some t, some p => if 0 < t then some (p / t) else none
  | _, _ => none

/-- `log_unit_price = np.where((unit_price > 0) & is_valid_sheets,
log(unit_price), nan)` (lines 131-135), with `np.log` as the parameter `L`. -/
def logUnitPrice (L : ℚ → ℚ) (r : RawRow) : Option ℚ :=
  match unitPrice r with
  | some u => if 0 < u ∧ isValidSheets r then some (L u) else none
  | none => none

/-- `_segment_value = df[SEGMENT_BASE].where(df["is_valid_sheets"])`
(line 156) with the source's configured `SEGMENT_BASE = "unit_price"`. -/
def segVal (r : RawRow) : Option ℚ :=
  if isValidSheets r then unitPrice r else none

/-! ### Cohorts and quantiles -/

/-- Cohort key `(week_start_date, category_group)`. -/
abbrev Key := String × String

/-- The cohort a row belongs to; rows with null `category_group` have no
cohort (pandas `groupby` drops NaN keys). -/
def rowKey (r : RawRow) : Option Key :=
  (normalize_category r).map fun g => (r.week, g)

def cohortRows (df : List RawRow) (k : Key) : List RawRow :=
  df.filter fun r => rowKey r = some k

def cohortKeys (df : List RawRow) : List Key :=
  (df.filterMap rowKey).dedup

/-- Insertion step of an ascending insertion sort on `ℚ`. -/
def insertSorted (x : ℚ) : List ℚ → List ℚ
  | [] => [x]
  | y :: ys => if x ≤ y then x :: y :: ys else y :: insertSorted x ys

/-- Ascending sort, used to model the sort inside `Series.quantile`. -/
def sortQ (l : List ℚ) : List ℚ := l.foldr insertSorted []

/-- pandas `Series.quantile(q, interpolation="linear")` over the non-null
values `l`: on the ascending sort `s` of length `n`, the index
`pos = q * (n - 1)` is split into floor `f` and fraction, and the result is
`s[f] + (pos - f) * (s[f+1] - s[f])`; an empty input gives NaN. -/
def quantileQ (l : List ℚ) (q : ℚ) : Option ℚ :=
  if l.isEmpty then none
  else
    let s := sortQ l
    let pos : ℚ := q * ((s.length : ℚ) - 1)
    let f : ℕ := (⌊pos⌋).toNat
    let d := s.getD f 0
    some (d + (pos - (f : ℚ)) * (s.getD (f + 1) d - d))

/-- Non-null segmentation base values of a cohort. -/
def segVals (df : List RawRow) (k : Key) : List ℚ :=
  (cohortRows df k).filterMap segVal

/-- Non-null `log_unit_price` values of a cohort. -/
def logVals (L : ℚ → ℚ) (df : List RawRow) (k : Key) : List ℚ :=
  (cohortRows df k).filterMap (logUnitPrice L)

/-- Cohort `p50` of the segmentation base (lines 157-163). -/
def p50 (df : List RawRow) (k : Key) : Option ℚ := quantileQ (segVals df k) (1/2)

/-- Cohort `p85` of the segmentation base (lines 157-163). -/
def p85 (df : List RawRow) (k : Key) : Option ℚ := quantileQ (segVals df k) (17/20)

/-! ### Segmentation (`np.select`, lines 165-177) -/

/-- Option-valued `<=` with NumPy semantics (false when either side is NaN). -/
def oleB (x y : Option ℚ) : Bool :=
  match x, y with
  | some a, some b => decide (a ≤ b)
  | _, _ => false

/-- Option-valued `<` with NumPy semantics (false when either side is NaN). -/
def oltB (x y : Option ℚ) : Bool :=
  match x, y with
  | some a, some b => decide (a < b)
  | _, _ => false

/-- `segment` (lines 165-177): the three `np.select` conditions in source
order, default null. The two cohort cut points come from the row's cohort;
a row with a null `category_group` joins to null `p50`/`p85`. -/
def segment (df : List RawRow) (r : RawRow) : Option String :=
  let v := segVal r
  let a := match rowKey r with | some k => p50 df k | none => none
  let b := match rowKey r with | some k => p85 df k | none => none
  if v.isSome && a.isSome && oleB v a then some "Mass"
  else if v.isSome && a.isSome && b.isSome && oltB a v && oleB v b then some "Premium"
  else if v.isSome && b.isSome && oltB b v then some "Luxury"
  else none

/-! ### Price bands (`compute_price_band`, lines 78-92) -/

def PRICE_BAND_QUANTILES : List ℚ := [0, 1/5, 2/5, 3/5, 4/5, 1]

def PRICE_BAND_LABELS : List String :=
  ["P0-20", "P20-40", "P40-60", "P60-80", "P80-100"]

/-- Tail of `np.maximum.accumulate` starting from accumulator `m`. -/
def runMax (m : ℚ) : List ℚ → List ℚ
  | [] => []
  | x :: xs => max m x :: runMax (max m x) xs

/-- `np.maximum.accumulate` (line 86). -/
def runningMax : List ℚ → List ℚ
  | [] => []
  | x :: xs => x :: runMax x xs

/-- The cohort's price-band bin edges (lines 82-86): null when the cohort has
fewer than 2 non-null base values, otherwise the running maximum of the six
empirical quantiles. `getD 0` is never exercised: the list is non-empty, so
every quantile is present. -/
def bandCuts (df : List RawRow) (k : Key) : Option (List ℚ) :=
  let valid := segVals df k
  if valid.length < 2 then none
  else some (runningMax (PRICE_BAND_QUANTILES.map fun q => (quantileQ valid q).getD 0))

/-- `np.searchsorted(cuts, v, side="right")` for an ascending `cuts`: the
number of elements `≤ v`. -/
def countLE (cuts : List ℚ) (v : ℚ) : ℕ :=
  (cuts.filter fun c => decide (c ≤ v)).length

/-- Per-row result of `compute_price_band` (lines 87-91): the output series
starts all-null; a row receives a label only when its cohort has bin edges
and its base value is non-null; the band index is `searchsorted - 1` clipped
to `[0, 4]`. The `getD` default is never exercised since the index is `< 5`. -/
def price_band (df : List RawRow) (r : RawRow) : Option String :=
  match rowKey r with
  | none => none
  | some k =>
    match bandCuts df k, segVal r with
    | some cuts, some v =>
      let i : ℤ := (countLE cuts v : ℤ) - 1
      let j : ℕ := (max 0 (min i 4)).toNat
      some (PRICE_BAND_LABELS.getD j "P0-20")
    | _, _ => none

/-! ### IQR fences and the outlier flag (lines 195-206) -/

/-- Cohort `q1` of `log_unit_price` (line 195). -/
def q1Of (L : ℚ → ℚ) (df : List RawRow) (k : Key) : Option ℚ :=
  quantileQ (logVals L df k) (1/4)

/-- Cohort `q3` of `log_unit_price` (line 195). -/
def q3Of (L : ℚ → ℚ) (df : List RawRow) (k : Key) : Option ℚ :=
  quantileQ (logVals L df k) (3/4)

/-- `iqr = q3 - q1` (line 198); NaN propagates. -/
def iqrOf (L : ℚ → ℚ) (df : List RawRow) (k : Key) : Option ℚ :=
  match q1Of L df k, q3Of L df k with
  | some a, some b => some (b - a)
  | _, _ => none

/-- `lower_bound = q1 - 1.5 * iqr` (line 199). -/
def lowerBoundOf (L : ℚ → ℚ) (df : List RawRow) (k : Key) : Option ℚ :=
  match q1Of L df k, iqrOf L df k with
  | some a, some i => some (a - 3/2 * i)
  | _, _ => none

/-- `upper_bound = q3 + 1.5 * iqr` (line 200). -/
def upperBoundOf (L : ℚ → ℚ) (df : List RawRow) (k : Key) : Option ℚ :=
  match q3Of L df k, iqrOf L df k with
  | some b, some i => some (b + 3/2 * i)
  | _, _ => none

/-- The row's joined lower fence (join on the cohort key, line 197). -/
def rowLower (L : ℚ → ℚ) (df : List RawRow) (r : RawRow) : Option ℚ :=
  (rowKey r).bind (lowerBoundOf L df)

/-- The row's joined upper fence (join on the cohort key, line 197). -/
def rowUpper (L : ℚ → ℚ) (df : List RawRow) (r : RawRow) : Option ℚ :=
  (rowKey r).bind (upperBoundOf L df)

/-- `is_outlier_iqr` (lines 201-206): `log_unit_price`, `lower_bound` and
`upper_bound` all non-null, and the value strictly outside the fences. -/
def is_outlier_iqr (L : ℚ → ℚ) (df : List RawRow) (r : RawRow) : Bool :=
  match logUnitPrice L r, rowLower L df r, rowUpper L df r with
  | some x, some lo, some hi => decide (x < lo ∨ hi < x)
  | _, _, _ => false

/-! ### z-scores (lines 139-151), needed for the full-row output table -/

def meanQ (l : List ℚ) : ℚ := l.sum / (l.length : ℚ)

/-- Population variance (`ddof=0`). The source's standard deviation is
`sqrt` of this; `sqrt` is the parameter `S`. -/
def varP (l : List ℚ) : ℚ := meanQ (l.map fun x => (x - meanQ l) ^ 2)

/-- `z_log = (log_unit_price - mean) / std.where(std > 0)` (lines 139-142);
null for a null log price or a null cohort key (dropped group). -/
def zLog (L S : ℚ → ℚ) (df : List RawRow) (r : RawRow) : Option ℚ :=
  match rowKey r, logUnitPrice L r with
  | some k, some x =>
    let ls := logVals L df k
    let sd := S (varP ls)
    if 0 < sd then some ((x - meanQ ls) / sd) else none
  | _, _ => none

/-- `robust_z = (log - median) / (1.4826 * mad.where(mad > 0))`
(lines 144-151); the median and MAD are the 0.5-quantiles of the cohort's
non-null log prices and of their absolute deviations. -/
def robustZ (L : ℚ → ℚ) (df : List RawRow) (r : RawRow) : Option ℚ :=
  match rowKey r, logUnitPrice L r with
  | some k, some x =>
    let ls := logVals L df k
    match quantileQ ls (1/2) with
    | some m =>
      match quantileQ (ls.map fun y => |y - m|) (1/2) with
      | some mad => if 0 < mad then some ((x - m) / ((14826/10000 : ℚ) * mad)) else none
      | none => none
    | none => none
  | _, _ => none

/-! ### Rank weights and brand share of voice (lines 285-315) -/

/-- Sum of the non-null entries; pandas `sum` skips NaN and gives 0 on an
all-NaN column (default `min_count=0`). -/
def sumO (l : List (Option ℚ)) : ℚ := (l.filterMap id).sum

/-- `rank_weight_inv = np.where(page_rank > 0, 1/page_rank, nan)` (line 285). -/
def weightInv (r : RawRow) : Option ℚ :=
  match r.pageRank with
  | some p => if 0 < p then some (1 / p) else none
  | none => none

/-- `rank_weight_inv_sqrt = np.where(page_rank > 0, 1/sqrt(page_rank), nan)`
(lines 286-288), with `np.sqrt` as the parameter `S`. -/
def weightInvSqrt (S : ℚ → ℚ) (r : RawRow) : Option ℚ :=
  match r.pageRank with
  | some p => if 0 < p then some (1 / S p) else none
  | none => none

/-- The distinct brands of a cohort, i.e. the groups of
`groupby(group_cols + ["brand"])` restricted to one cohort (line 301). -/
def brandsOf (df : List RawRow) (k : Key) : List String :=
  ((cohortRows df k).map brandName).dedup

/-- `total_count` of `category_totals` (line 293): count of non-null
`product_name` over the cohort. -/
def totalCount (df : List RawRow) (k : Key) : ℕ :=
  ((cohortRows df k).filter fun r => r.productName.isSome).length

/-- `total_weight_inv` of `category_totals` (line 294). -/
def totalWeightInv (df : List RawRow) (k : Key) : ℚ :=
  sumO ((cohortRows df k).map weightInv)

/-- `total_weight_inv_sqrt` of `category_totals` (line 295). -/
def totalWeightInvSqrt (S : ℚ → ℚ) (df : List RawRow) (k : Key) : ℚ :=
  sumO ((cohortRows df k).map (weightInvSqrt S))

/-- Rows of one brand inside a cohort. -/
def brandRows (df : List RawRow) (k : Key) (b : String) : List RawRow :=
  (cohortRows df k).filter fun r => brandName r = b

/-- `item_count` of `category_sov` (line 303): non-null `product_name`
count within the (cohort, brand) group. -/
def brandItemCount (df : List RawRow) (k : Key) (b : String) : ℕ :=
  ((brandRows df k b).filter fun r => r.productName.isSome).length

/-- `weight_inv` of `category_sov` (line 304). -/
def brandWeightInv (df : List RawRow) (k : Key) (b : String) : ℚ :=
  sumO ((brandRows df k b).map weightInv)

/-- `weight_inv_sqrt` of `category_sov` (line 305). -/
def brandWeightInvSqrt (S : ℚ → ℚ) (df : List RawRow) (k : Key) (b : String) : ℚ :=
  sumO ((brandRows df k b).map (weightInvSqrt S))

/-- `sov = item_count / total_count` (line 310). A zero denominator (cohort
whose product names are all null) forces a zero numerator, so the source's
only realizable zero-denominator case is `0/0 = NaN`, modelled as `none`. -/
def sovOf (df : List RawRow) (k : Key) (b : String) : Option ℚ :=
  if totalCount df k = 0 then none
  else some ((brandItemCount df k b : ℚ) / (totalCount df k : ℚ))

/-- `weighted_sov_inv_rank = weight_inv / total_weight_inv` (line 311).
The brand sums are bounded by the cohort total, so a zero denominator forces
a zero numerator: the source's only realizable zero-denominator case is
`0/0 = NaN`, modelled as `none`. -/
def weightedSovInvRank (df : List RawRow) (k : Key) (b : String) : Option ℚ :=
  if totalWeightInv df k = 0 then none
  else some (brandWeightInv df k b / totalWeightInv df k)

/-- `weighted_sov_inv_sqrt = weight_inv_sqrt / total_weight_inv_sqrt`
(lines 312-314); zero denominator as in `weightedSovInvRank`. -/
def weightedSovInvSqrt (S : ℚ → ℚ) (df : List RawRow) (k : Key) (b : String) : Option ℚ :=
  if totalWeightInvSqrt S df k = 0 then none
  else some (brandWeightInvSqrt S df k b / totalWeightInvSqrt S df k)

/-- One row of the `category_sov` output table. -/
structure SovRow where
  week : String
  category : String
  brand : String
  itemCount : ℕ
  weightInvS : ℚ
  weightInvSqrtS : ℚ
  sov : Option ℚ
  wSovInvRank : Option ℚ
  wSovInvSqrt : Option ℚ
deriving Repr, DecidableEq

/-- The `category_sov` table (lines 300-315): one row per (cohort, brand). -/
def sovRows (S : ℚ → ℚ) (df : List RawRow) : List SovRow :=
  (cohortKeys df).flatMap fun k =>
    (brandsOf df k).map fun b =>
      { week := k.1, category := k.2, brand := b
        itemCount := brandItemCount df k b
        weightInvS := brandWeightInv df k b
        weightInvSqrtS := brandWeightInvSqrt S df k b
        sov := sovOf df k b
        wSovInvRank := weightedSovInvRank df k b
        wSovInvSqrt := weightedSovInvSqrt S df k b }

/-! ### Market gap (lines 317-331) -/

/-- One row of the `market_gap` output table. In ℚ the divisions are exact;
`gap_score` is null exactly when `weighted_sov` is (NaN propagation). The
source's unguarded `weighted_sov / supply_share` could only produce Inf/NaN
from a zero `supply_share`, a case proved unreachable below. -/
structure GapRow where
  week : String
  category : String
  band : String
  itemCount : ℕ
  brandCount : ℕ
  weightInvSqrtS : ℚ
  totalCountC : ℕ
  totalWeightInvSqrtC : ℚ
  weightedSov : Option ℚ
  supplyShare : ℚ
  gapScore : Option ℚ
deriving Repr, DecidableEq

/-- The group keys of `df[df["price_band"].notna()].groupby(group_cols +
["price_band"])` (lines 317-319): distinct (cohort, band) pairs of rows with
a non-null band. A banded row always has a cohort key. -/
def bandKeys (df : List RawRow) : List (Key × String) :=
  (df.filterMap fun r =>
    match rowKey r, price_band df r with
    | some k, some b => some (k, b)
    | _, _ => none).dedup

/-- The rows of one (cohort, band) group. -/
def bandRows (df : List RawRow) (k : Key) (b : String) : List RawRow :=
  (cohortRows df k).filter fun r => price_band df r = some b

/-- The `market_gap` table (lines 317-331): counts and the `1/sqrt(rank)`
weight sum per (cohort, band), merged with the cohort totals;
`weighted_sov = weight_inv_sqrt / total_weight_inv_sqrt` (NaN when the
cohort total is 0, which forces the group sum to 0), `supply_share =
item_count / total_count`, `gap_score = weighted_sov / supply_share`. -/
def gapRows (S : ℚ → ℚ) (df : List RawRow) : List GapRow :=
  (bandKeys df).map fun kb =>
    let rs := bandRows df kb.1 kb.2
    let w := sumO (rs.map (weightInvSqrt S))
    let tw := totalWeightInvSqrt S df kb.1
    let item := (rs.filter fun r => r.productName.isSome).length
    let share : ℚ := (item : ℚ) / (totalCount df kb.1 : ℚ)
    { week := kb.1.1, category := kb.1.2, band := kb.2
      itemCount := item
      brandCount := (rs.map brandName).dedup.length
      weightInvSqrtS := w
      totalCountC := totalCount df kb.1
      totalWeightInvSqrtC := tw
      weightedSov := if tw = 0 then none else some (w / tw)
      supplyShare := share
      gapScore := (if tw = 0 then none else some (w / tw)).map (· / share) }

/-! ### Correlation table (lines 247-283) -/

/-- One row of the `corr_rank_price` output table. -/
structure CorrRow where
  week : String
  category : String
  n : ℕ
  spearmanCorr : Option ℚ
  spearmanP : Option ℚ
  kendallCorr : Option ℚ
  kendallP : Option ℚ
  slope : Option ℚ
  r2 : Option ℚ
deriving Repr, DecidableEq

/-- `group[["page_rank", "log_unit_price"]].dropna()` (line 249). -/
def corrSubset (L : ℚ → ℚ) (df : List RawRow) (k : Key) : List (ℚ × ℚ) :=
  (cohortRows df k).filterMap fun r =>
    match r.pageRank, logUnitPrice L r with
    | some p, some x => some (p, x)
    | _, _ => none

/-- The correlation row of one cohort (lines 250-281): when the dropna
subset has fewer than 2 rows, every statistic is null; otherwise the six
statistics are whatever the scipy calls return, abstracted as the parameter
`stat` (no claim depends on their values). -/
def corrRowFor (L : ℚ → ℚ)
    (stat : List (ℚ × ℚ) → Option ℚ × Option ℚ × Option ℚ × Option ℚ × Option ℚ × Option ℚ)
    (df : List RawRow) (k : Key) : CorrRow :=
  let sub := corrSubset L df k
  if sub.length < 2 then
    { week := k.1, category := k.2, n := sub.length
      spearmanCorr := none, spearmanP := none, kendallCorr := none
      kendallP := none, slope := none, r2 := none }
  else
    let t := stat sub
    { week := k.1, category := k.2, n := sub.length
      spearmanCorr := t.1, spearmanP := t.2.1, kendallCorr := t.2.2.1
      kendallP := t.2.2.2.1, slope := t.2.2.2.2.1, r2 := t.2.2.2.2.2 }

/-- The `corr_rank_price` table (lines 247-283): one row per cohort. -/
def corrRows (L : ℚ → ℚ)
    (stat : List (ℚ × ℚ) → Option ℚ × Option ℚ × Option ℚ × Option ℚ × Option ℚ × Option ℚ)
    (df : List RawRow) : List CorrRow :=
  (cohortKeys df).map (corrRowFor L stat df)

/-! ### Keyword table (`tokenize` lines 95-106, `main` lines 333-349) -/

def STOPWORDS : List String :=
  ["패드", "대용량", "기획", "세트", "증정", "본품", "리필", "한정",
   "특가", "정품", "미니", "휴대용", "증정품", "기획전", "단독", "구성"]

/-- A character kept by the regex class `[0-9a-zA-Z가-힣]`. -/
def isKeptChar (c : Char) : Bool :=
  ('0' ≤ c && c ≤ '9') || ('a' ≤ c && c ≤ 'z') || ('A' ≤ c && c ≤ 'Z') ||
  ('가' ≤ c && c ≤ '힣')

/-- `tokenize` (lines 95-106): lowercase, replace runs of other characters by
spaces, split, drop stopwords and tokens shorter than 2 characters. -/
def tokenize (t : Option String) : List String :=
  match t with
  | none => []
  | some s =>
    let cleaned := (s.toList.map Char.toLower).map fun c => if isKeptChar c then c else ' '
    let words := (cleaned.splitOn ' ').filter fun w => w ≠ []
    (words.map fun w => String.mk w).filter fun w =>
      !STOPWORDS.contains w && 2 ≤ w.length

/-- First-occurrence-ordered distinct elements (the key order of a Python
`Counter` built by successive updates). -/
def uniqueFirst (l : List String) : List String :=
  l.foldl (fun acc x => if x ∈ acc then acc else acc ++ [x]) []

/-- Stable insertion for a descending sort by count: ties keep the earlier
element first, as `Counter.most_common` does. -/
def insertByCount (p : String × ℕ) : List (String × ℕ) → List (String × ℕ)
  | [] => [p]
  | q :: qs => if q.2 ≤ p.2 then p :: q :: qs else q :: insertByCount p qs

/-- Stable descending sort by count (`Counter.most_common`). -/
def sortByCountDesc (l : List (String × ℕ)) : List (String × ℕ) :=
  l.foldr insertByCount []

/-- One row of the `top_keywords` output table. -/
structure KwRow where
  week : String
  category : String
  token : String
  count : ℕ
  tokenRank : ℕ
deriving Repr, DecidableEq

/-- The `top_keywords` table (lines 333-349): per cohort, token counts over
all product names, top 20 by count (insertion order on ties), 1-based rank. -/
def keywordRows (df : List RawRow) : List KwRow :=
  (cohortKeys df).flatMap fun k =>
    let toks := (cohortRows df k).flatMap fun r => tokenize r.productName
    let pairs := (uniqueFirst toks).map fun t => (t, toks.count t)
    ((sortByCountDesc pairs).take 20).enum.map fun ic =>
      { week := k.1, category := k.2, token := ic.2.1
        count := ic.2.2, tokenRank := ic.1 + 1 }

/-! ### Data-quality table (lines 417-428) -/

/-- Mean of a boolean column (`.agg(..., "mean")`). -/
def meanB (l : List Bool) : ℚ := ((l.filter id).length : ℚ) / (l.length : ℚ)

/-- One row of the `data_quality` output table. -/
structure DqRow where
  week : String
  category : String
  totalCountC : ℕ
  hasSheetsRate : ℚ
  invalidSheetsRate : ℚ
  outlierRate : ℚ
  missingSheetsRate : ℚ
deriving Repr, DecidableEq

/-- The `data_quality` table (lines 417-428): per cohort, the non-null
product-name count and the means of the three boolean flags, plus
`missing_sheets_rate = 1 - has_sheets_rate`. -/
def dataQuality (L : ℚ → ℚ) (df : List RawRow) : List DqRow :=
  (cohortKeys df).map fun k =>
    let rs := cohortRows df k
    let hs := meanB (rs.map hasSheets)
    { week := k.1, category := k.2
      totalCountC := totalCount df k
      hasSheetsRate := hs
      invalidSheetsRate := meanB (rs.map isUnrealisticSheets)
      outlierRate := meanB (rs.map fun r => is_outlier_iqr L df r)
      missingSheetsRate := 1 - hs }

/-! ### The full normalized row table (`clean_long`, line 214) -/

/-- One row of the `clean_long` output, restricted to the cohort-dependent
derived fields the claims discuss. -/
structure CleanRow where
  raw : RawRow
  zLogF : Option ℚ
  robustZF : Option ℚ
  segmentF : Option String
  priceBandF : Option String
  lowerF : Option ℚ
  upperF : Option ℚ
  outlierF : Bool
deriving Repr, DecidableEq

/-- The `clean_long` table keeps every input row (line 214) and attaches the
derived fields. -/
def cleanLong (L S : ℚ → ℚ) (df : List RawRow) : List CleanRow :=
  df.map fun r =>
    { raw := r
      zLogF := zLog L S df r
      robustZF := robustZ L df r
      segmentF := segment df r
      priceBandF := price_band df r
      lowerF := rowLower L df r
      upperF := rowUpper L df r
      outlierF := is_outlier_iqr L df r }

/-- The rows that carry a cohort key (non-null `category_group`). -/
def dfValid (df : List RawRow) : List RawRow :=
  df.filter fun r => (normalize_category r).isSome

/-! ### Artifact-write model of `main` (lines 109-428)

`main` writes its eleven output files one by one as it computes them; it is
not transactional.  The model below records, for a run over a loaded frame
with column set `cols`, which artifacts get written before the run either
finishes or dies on a missing-column access:
* `load_inputs` raises before any write when no input file exists (lines
  36-48), modelled by `hasInput`;
* lines 112-119 access the columns `price`, `page_rank`, `week_start_date`,
  `brand`, `product_name`; a missing one raises a `KeyError` before the
  first write;
* line 214 writes `clean_long.csv`;
* line 230 evaluates `df[scatter_cols]`, which raises a `KeyError` when any
  of the raw columns `category1`, `category2`, `category3` is absent from
  the input (`normalize_category` used the null-safe `df.get`, so the run
  reaches this point) — after `clean_long.csv` was already written;
* every later step uses only columns that are certain to exist by then, so
  with all accesses satisfied the remaining ten writes follow in order.
Exceptions raised inside the external scipy calls are outside this model. -/

def REQUIRED_BASE_COLS : List String :=
  ["price", "page_rank", "week_start_date", "brand", "product_name"]

def SCATTER_RAW_COLS : List String := ["category1", "category2", "category3"]

def ALL_ARTIFACTS : List String :=
  ["clean_long.csv", "positioning_scatter.csv", "positioning_summary.csv",
   "corr_rank_price.csv", "category_sov.csv", "market_gap.csv",
   "top_keywords.csv", "calmf_products.csv", "calmf_vs_market.csv",
   "outliers.csv", "data_quality.csv"]

/-- The artifacts a run writes, and whether it completes. -/
def mainArtifacts (hasInput : Bool) (cols : List String) : List String × Bool :=
  if !hasInput then ([], false)
  else if !(REQUIRED_BASE_COLS.all fun c => cols.contains c) then ([], false)
  else if !(SCATTER_RAW_COLS.all fun c => cols.contains c) then (["clean_long.csv"], false)
  else (ALL_ARTIFACTS, true)

/-! ### Concrete example inputs used by the claims -/

/-- The scenario row of C8. -/
def ex8 : RawRow :=
  { week := "W", category1 := none, category2 := some "A", brand := some "B"
    productName := some "마스크팩 30매 2개입", price := some 20000, pageRank := some 5 }

/-- A row whose name parses to 10 sheets and one unit, so that
`unit_price = price / 10`; used to build cohorts with prescribed values. -/
def mkRow (p : ℚ) : RawRow :=
  { week := "W", category1 := none, category2 := some "A", brand := some "B"
    productName := some "10매", price := some p, pageRank := some 1 }

/-- A one-row input whose single cohort has exactly one valid row
(`unit_price = 10`). -/
def dfOne : List RawRow := [mkRow 100]

/-- The five-row cohort of C7: unit prices (hence, with `L = id`, log
prices) 1, 2, 3, 4, 100. -/
def df7 : List RawRow := [mkRow 10, mkRow 20, mkRow 30, mkRow 40, mkRow 1000]

/-- A two-valid-row input, enough for price-band cut points. -/
def dfTwo : List RawRow := [mkRow 10, mkRow 20]

/-- A one-row input whose row has a null `page_rank`. -/
def dfNoRank : List RawRow :=
  [{ week := "W", category1 := none, category2 := some "A", brand := some "B"
     productName := some "10매", price := some 100, pageRank := none }]

/-- A row with both category fields empty: null `category_group`. -/
def rNoCat : RawRow :=
  { week := "W", category1 := none, category2 := none, brand := some "B"
    productName := some "10매", price := some 100, pageRank := some 1 }

/-! ### General lemmas -/

theorem quantileQ_isSome {l : List ℚ} (q : ℚ) (h : l ≠ []) :
    ∃ x, quantileQ l q = some x := by
  unfold quantileQ
  rw [if_neg (by simpa using h)]
  exact ⟨_, rfl⟩

theorem quantileQ_singleton (v q : ℚ) : quantileQ [v] q = some v := by
  simp [quantileQ, sortQ, insertSorted]

theorem mem_cohortRows {df : List RawRow} {r : RawRow} {k : Key}
    (hr : r ∈ df) (hk : rowKey r = some k) : r ∈ cohortRows df k := by
  unfold cohortRows
  exact List.mem_filter.mpr ⟨hr, by simp [hk]⟩

theorem mem_segVals {df : List RawRow} {r : RawRow} {k : Key} {v : ℚ}
    (hr : r ∈ df) (hk : rowKey r = some k) (hv : segVal r = some v) :
    v ∈ segVals df k := by
  unfold segVals
  exact List.mem_filterMap.mpr ⟨r, mem_cohortRows hr hk, hv⟩

/-- `log_unit_price` expressed through the segmentation base: the two fields
are non-null for exactly the same rows up to the positivity of the value. -/
theorem logUnitPrice_eq_bind (L : ℚ → ℚ) (r : RawRow) :
    logUnitPrice L r = (segVal r).bind fun u => if 0 < u then some (L u) else none := by
  unfold logUnitPrice segVal
  cases hv : isValidSheets r <;> cases hu : unitPrice r <;> simp [hv, hu]

theorem filterMap_eq_filter_isSome {α β : Type} (f : α → Option β) (l : List α) :
    l.filterMap f = (l.filter fun x => (f x).isSome).filterMap f := by
  induction l with
  | nil => rfl
  | cons x xs ih =>
    cases hx : f x <;> simp [List.filterMap_cons, List.filter_cons, hx, ih]

/-! ### C8 -/

/-- C8: on the row with product name "마스크팩 30매 2개입" and price 20000
the normalizer extracts 30 sheets per unit (first `<digits>매` token) and 2
units (first `<digits>개` match in the fixed pattern order), hence 60 total
sheets, a unit price of 20000/60 = 1000/3, and a valid-sheets flag, 60 being
inside [10, 1000]. -/
theorem C8_normalizer_scenario :
    sheetsPerUnit ex8 = some 30 ∧ unitsOf ex8 = 2 ∧
    totalSheets ex8 = some 60 ∧ unitPrice ex8 = some (1000/3) ∧
    isValidSheets ex8 = true ∧ isUnrealisticSheets ex8 = false := by
  decide

/-! ### C9 -/

/-- C9 counterexample: a loaded input with the five base columns and
`category1`/`category2` but no `category3` column passes every step up to and
including the `clean_long.csv` write (line 214), then dies on the
`df[scatter_cols]` access (line 230): the aborted run leaves exactly one
artifact, a non-empty proper subset of the output set, refuting
all-or-nothing behaviour. -/
theorem C9_counterexample :
    mainArtifacts true
        ["price", "page_rank", "week_start_date", "brand", "product_name",
         "category1", "category2"] = (["clean_long.csv"], false) ∧
    (["clean_long.csv"] : List String) ≠ [] ∧
    (["clean_long.csv"] : List String) ≠ ALL_ARTIFACTS := by
  decide

/-- C9 (amended): a run that completes writes all eleven artifacts, and a
run that fails before the first write (no input, or a missing base column)
writes none; but a failure at the positioning-scatter column access happens
after `clean_long.csv` is written, so an aborted run can leave that single
artifact behind — the pipeline is not all-or-nothing. -/
theorem C9_artifact_trace (hasInput : Bool) (cols : List String) :
    ((mainArtifacts hasInput cols).2 = true →
      (mainArtifacts hasInput cols).1 = ALL_ARTIFACTS) ∧
    ((mainArtifacts hasInput cols).1 ≠ [] →
      (mainArtifacts hasInput cols).1 = ["clean_long.csv"] ∨
      (mainArtifacts hasInput cols).1 = ALL_ARTIFACTS) := by
  unfold mainArtifacts
  split_ifs <;> simp [ALL_ARTIFACTS]

/-- C9 witness: the amended statement evaluated on a complete run and on a
run with no input. -/
theorem C9_artifact_trace_witness :
    (mainArtifacts true
      ["price", "page_rank", "week_start_date", "brand", "product_name",
       "category1", "category2", "category3"]).1 = ALL_ARTIFACTS ∧
    (mainArtifacts false []).1 = [] := by
  refine ⟨(C9_artifact_trace true _).1 (by decide), ?_⟩
  rcases (C9_artifact_trace false []).2 with h
  decide

/-! ### C7 -/

/-- C7: `is_outlier_iqr` is true exactly when the log unit price and both
joined Tukey fences are non-null and the value lies strictly outside them;
and on the concrete cohort with log prices [1, 2, 3, 4, 100] (taking the log
parameter as the identity) Q1 = 2, Q3 = 4, IQR = 2, fences [-1, 7], and only
the row with value 100 is flagged. -/
theorem C7_outlier_rule :
    (∀ (L : ℚ → ℚ) (df : List RawRow) (r : RawRow),
      is_outlier_iqr L df r = true ↔
        ∃ x lo hi, logUnitPrice L r = some x ∧ rowLower L df r = some lo ∧
          rowUpper L df r = some hi ∧ (x < lo ∨ hi < x)) ∧
    logVals id df7 ("W", "A") = [1, 2, 3, 4, 100] ∧
    q1Of id df7 ("W", "A") = some 2 ∧
    q3Of id df7 ("W", "A") = some 4 ∧
    iqrOf id df7 ("W", "A") = some 2 ∧
    lowerBoundOf id df7 ("W", "A") = some (-1) ∧
    upperBoundOf id df7 ("W", "A") = some 7 ∧
    df7.map (is_outlier_iqr id df7) = [false, false, false, false, true] := by
  refine ⟨?_, by decide, by decide, by decide, by decide, by decide, by decide, by decide⟩
  intro L df r
  unfold is_outlier_iqr
  cases hx : logUnitPrice L r <;> cases hlo : rowLower L df r <;>
    cases hhi : rowUpper L df r <;> simp [hx, hlo, hhi]

/-! ### C1 -/

theorem segment_none_of_val {df : List RawRow} {r : RawRow}
    (hv : segVal r = none) : segment df r = none := by
  simp [segment, hv]

theorem segment_none_of_key {df : List RawRow} {r : RawRow}
    (hk : rowKey r = none) : segment df r = none := by
  simp [segment, hk]

/-- A row of the input with a non-null base value and a cohort key always
receives one of the three segment labels: its own value makes its cohort's
`p50`/`p85` quantiles non-null, and the three `np.select` conditions cover
every position relative to them. -/
theorem segment_of_some {df : List RawRow} {r : RawRow} {v : ℚ} {k : Key}
    (hr : r ∈ df) (hv : segVal r = some v) (hk : rowKey r = some k) :
    segment df r = some "Mass" ∨ segment df r = some "Premium" ∨
      segment df r = some "Luxury" := by
  have hmem : v ∈ segVals df k := mem_segVals hr hk hv
  have hne : segVals df k ≠ [] := List.ne_nil_of_mem hmem
  obtain ⟨a, ha⟩ := quantileQ_isSome (l := segVals df k) (1/2) hne
  obtain ⟨b, hb⟩ := quantileQ_isSome (l := segVals df k) (17/20) hne
  have ha' : p50 df k = some a := by unfold p50; exact ha
  have hb' : p85 df k = some b := by unfold p85; exact hb
  rcases le_or_lt v a with hva | hva
  · exact Or.inl (by simp [segment, hk, hv, ha', hb', oleB, hva])
  · rcases le_or_lt v b with hvb | hvb
    · exact Or.inr (Or.inl
        (by simp [segment, hk, hv, ha', hb', oleB, oltB, hva, hvb, not_le.mpr hva]))
    · exact Or.inr (Or.inr
        (by simp [segment, hk, hv, ha', hb', oleB, oltB, hva, hvb,
            not_le.mpr hva, not_le.mpr hvb]))

/-- C1 counterexample: the one-row input `dfOne` gives a cohort with exactly
one valid base value (so fewer than 2, and the claim demands a null
segment), yet the row's segment is "Mass": a single non-null value already
yields a `p50`. -/
theorem C1_counterexample :
    (segVals dfOne ("W", "A")).length = 1 ∧
    segVal (mkRow 100) = some 10 ∧
    rowKey (mkRow 100) = some ("W", "A") ∧
    segment dfOne (mkRow 100) = some "Mass" := by
  decide

/-- C1 (amended): `segment` is null iff the base value is null or the row
has no cohort (null `category_group`); a non-null base value in a cohort
already guarantees a `p50` (one value suffices for a pandas quantile), and
then the row gets exactly one of Mass/Premium/Luxury. -/
theorem C1_segment_null_iff (df : List RawRow) (r : RawRow) (hr : r ∈ df) :
    (segment df r = none ↔ (segVal r = none ∨ normalize_category r = none)) ∧
    (segVal r ≠ none → normalize_category r ≠ none →
      (segment df r = some "Mass" ∨ segment df r = some "Premium" ∨
        segment df r = some "Luxury")) := by
  have hlabel : segVal r ≠ none → normalize_category r ≠ none →
      (segment df r = some "Mass" ∨ segment df r = some "Premium" ∨
        segment df r = some "Luxury") := by
    intro hv hg
    obtain ⟨v, hv'⟩ := Option.ne_none_iff_exists'.mp hv
    obtain ⟨g, hg'⟩ := Option.ne_none_iff_exists'.mp hg
    exact segment_of_some (k := (r.week, g)) hr hv' (by simp [rowKey, hg'])
  refine ⟨⟨?_, ?_⟩, hlabel⟩
  · intro h
    by_contra hcon
    push_neg at hcon
    rcases hlabel hcon.1 hcon.2 with h' | h' | h' <;> simp [h'] at h
  · rintro (h | h)
    · exact segment_none_of_val h
    · exact segment_none_of_key (by simp [rowKey, h])

/-- C1 witness: the amended statement on the concrete one-row input. -/
theorem C1_segment_null_iff_witness :
    (segment dfOne (mkRow 100) = none ↔
      (segVal (mkRow 100) = none ∨ normalize_category (mkRow 100) = none)) ∧
    (segVal (mkRow 100) ≠ none → normalize_category (mkRow 100) ≠ none →
      (segment dfOne (mkRow 100) = some "Mass" ∨
        segment dfOne (mkRow 100) = some "Premium" ∨
        segment dfOne (mkRow 100) = some "Luxury")) :=
  C1_segment_null_iff dfOne (mkRow 100) (by decide)

/-! ### C2 -/

/-- C2 counterexample: `dfOne` is a cohort with exactly one valid row, and
on it the segmentation thresholds, Q1 and both Tukey fences all equal the
row's (log) value rather than being null, and the segment is "Mass" rather
than null; only `price_band` is null and `is_outlier_iqr` false. -/
theorem C2_counterexample :
    ((cohortRows dfOne ("W", "A")).filter fun r => (segVal r).isSome) = [mkRow 100] ∧
    p50 dfOne ("W", "A") = some 10 ∧
    p85 dfOne ("W", "A") = some 10 ∧
    q1Of id dfOne ("W", "A") = some 10 ∧
    q3Of id dfOne ("W", "A") = some 10 ∧
    lowerBoundOf id dfOne ("W", "A") = some 10 ∧
    upperBoundOf id dfOne ("W", "A") = some 10 ∧
    segment dfOne (mkRow 100) = some "Mass" := by
  decide

/-- C2 (amended): in a cohort whose only valid row carries the positive
base value `v`, the price-band cut points are indeed not computed (the
row's `price_band` is null) and `is_outlier_iqr` is false — but the
segmentation thresholds p50/p85 equal `v`, Q1/Q3 and both Tukey fences
equal `L v` (IQR 0), and the row's segment is "Mass", not null. -/
theorem C2_single_valid_cohort (L : ℚ → ℚ) (df : List RawRow) (k : Key)
    (r0 : RawRow) (v : ℚ)
    (h1 : ((cohortRows df k).filter fun r => (segVal r).isSome) = [r0])
    (h2 : segVal r0 = some v) (h3 : 0 < v) :
    segVals df k = [v] ∧ p50 df k = some v ∧ p85 df k = some v ∧
    bandCuts df k = none ∧
    q1Of L df k = some (L v) ∧ q3Of L df k = some (L v) ∧ iqrOf L df k = some 0 ∧
    lowerBoundOf L df k = some (L v) ∧ upperBoundOf L df k = some (L v) ∧
    segment df r0 = some "Mass" ∧ price_band df r0 = none ∧
    is_outlier_iqr L df r0 = false := by
  have hseg : segVals df k = [v] := by
    unfold segVals
    rw [filterMap_eq_filter_isSome, h1]
    simp [List.filterMap_cons, h2]
  have hkey : rowKey r0 = some k := by
    have hm : r0 ∈ (cohortRows df k).filter fun r => (segVal r).isSome := by
      rw [h1]; exact List.mem_singleton.mpr rfl
    have hm2 := (List.mem_filter.mp hm).1
    have hm3 := (List.mem_filter.mp hm2).2
    simpa using hm3
  have hlog : logVals L df k = [L v] := by
    unfold logVals
    calc (cohortRows df k).filterMap (logUnitPrice L)
        = (cohortRows df k).filterMap
            (fun r => (segVal r).bind fun u => if 0 < u then some (L u) else none) := by
          congr 1
          funext r
          exact logUnitPrice_eq_bind L r
      _ = ((cohortRows df k).filterMap segVal).filterMap
            (fun u => if 0 < u then some (L u) else none) := by
          rw [List.filterMap_filterMap]
      _ = [L v] := by
          have : (cohortRows df k).filterMap segVal = [v] := hseg
          rw [this]
          simp [List.filterMap_cons, h3]
  have hp50 : p50 df k = some v := by unfold p50; rw [hseg]; exact quantileQ_singleton v _
  have hp85 : p85 df k = some v := by unfold p85; rw [hseg]; exact quantileQ_singleton v _
  have hcuts : bandCuts df k = none := by
    unfold bandCuts
    rw [hseg]
    simp
  have hq1 : q1Of L df k = some (L v) := by
    unfold q1Of; rw [hlog]; exact quantileQ_singleton (L v) _
  have hq3 : q3Of L df k = some (L v) := by
    unfold q3Of; rw [hlog]; exact quantileQ_singleton (L v) _
  have hiqr : iqrOf L df k = some 0 := by
    unfold iqrOf; rw [hq1, hq3]; simp
  have hlo : lowerBoundOf L df k = some (L v) := by
    unfold lowerBoundOf; rw [hq1, hiqr]; norm_num
  have hhi : upperBoundOf L df k = some (L v) := by
    unfold upperBoundOf; rw [hq3, hiqr]; norm_num
  have hlogr : logUnitPrice L r0 = some (L v) := by
    rw [logUnitPrice_eq_bind, h2]
    simp [h3]
  refine ⟨hseg, hp50, hp85, hcuts, hq1, hq3, hiqr, hlo, hhi, ?_, ?_, ?_⟩
  · simp [segment, hkey, h2, hp50, hp85, oleB]
  · simp [price_band, hkey, hcuts]
  · simp [is_outlier_iqr, hlogr, rowLower, rowUpper, hkey, hlo, hhi]

/-- C2 witness: the amended statement on the concrete one-row cohort with
base value 10 and `L` the identity. -/
theorem C2_single_valid_cohort_witness :
    segVals dfOne ("W", "A") = [10] ∧ p50 dfOne ("W", "A") = some 10 ∧
    p85 dfOne ("W", "A") = some 10 ∧ bandCuts dfOne ("W", "A") = none ∧
    q1Of id dfOne ("W", "A") = some 10 ∧ q3Of id dfOne ("W", "A") = some 10 ∧
    iqrOf id dfOne ("W", "A") = some 0 ∧
    lowerBoundOf id dfOne ("W", "A") = some 10 ∧
    upperBoundOf id dfOne ("W", "A") = some 10 ∧
    segment dfOne (mkRow 100) = some "Mass" ∧
    price_band dfOne (mkRow 100) = none ∧
    is_outlier_iqr id dfOne (mkRow 100) = false :=
  C2_single_valid_cohort id dfOne ("W", "A") (mkRow 100) 10
    (by decide) (by decide) (by norm_num)

/-! ### C4 -/

theorem chain_runMax (m : ℚ) (l : List ℚ) : List.Chain (· ≤ ·) m (runMax m l) := by
  induction l generalizing m with
  | nil => exact List.Chain.nil
  | cons x xs ih => exact List.Chain.cons (le_max_left m x) (ih (max m x))

theorem chain'_runningMax (l : List ℚ) : List.Chain' (· ≤ ·) (runningMax l) := by
  cases l with
  | nil => simp [runningMax]
  | cons x xs => exact chain_runMax x xs

theorem getD_label_mem (j : ℕ) (hj : j ≤ 4) :
    PRICE_BAND_LABELS.getD j "P0-20" ∈ PRICE_BAND_LABELS := by
  interval_cases j <;> decide

/-- C4: whenever a cohort has price-band cut points (at least 2 valid base
values), the cut-point list is monotonically non-decreasing (the running
maximum of the six quantiles), and every row of the cohort with a non-null
base value is assigned exactly one of the five fixed band labels (the
searchsorted index is clipped into the label range). -/
theorem C4_band_cuts (df : List RawRow) (k : Key) (cuts : List ℚ)
    (hc : bandCuts df k = some cuts) :
    List.Chain' (· ≤ ·) cuts ∧
    ∀ r : RawRow, rowKey r = some k → (segVal r).isSome →
      ∃ lbl ∈ PRICE_BAND_LABELS, price_band df r = some lbl := by
  constructor
  · unfold bandCuts at hc
    by_cases h : (segVals df k).length < 2
    · simp [h] at hc
    · simp only [h, if_false] at hc
      rw [← Option.some_inj.mp hc]
      exact chain'_runningMax _
  · intro r hk hv
    obtain ⟨v, hv'⟩ := Option.isSome_iff_exists.mp hv
    simp only [price_band, hk, hc, hv']
    refine ⟨_, getD_label_mem _ ?_, rfl⟩
    exact Int.toNat_le.mpr (max_le (by norm_num) (min_le_right _ _))

/-- C4 witness: the two-valid-row cohort has the concrete non-decreasing cut
points [1, 6/5, 7/5, 8/5, 9/5, 2] and its first row receives a label. -/
theorem C4_band_cuts_witness :
    bandCuts dfTwo ("W", "A") = some [1, 6/5, 7/5, 8/5, 9/5, 2] ∧
    List.Chain' (· ≤ ·) [(1 : ℚ), 6/5, 7/5, 8/5, 9/5, 2] ∧
    (∃ lbl ∈ PRICE_BAND_LABELS, price_band dfTwo (mkRow 10) = some lbl) := by
  have h := C4_band_cuts dfTwo ("W", "A") [1, 6/5, 7/5, 8/5, 9/5, 2] (by decide)
  exact ⟨by decide, h.1, h.2 (mkRow 10) (by decide) (by decide)⟩

/-! ### C3 -/

theorem price_band_some_elim {df : List RawRow} {r : RawRow} {b : String}
    (h : price_band df r = some b) :
    ∃ k, rowKey r = some k ∧ (segVal r).isSome := by
  cases hk : rowKey r with
  | none => simp [price_band, hk] at h
  | some k =>
    cases hc : bandCuts df k with
    | none => simp [price_band, hk, hc] at h
    | some cuts =>
      cases hv : segVal r with
      | none => simp [price_band, hk, hc, hv] at h
      | some v => exact ⟨k, rfl, by simp [hv]⟩

/-- A row with a non-null segmentation base value has a non-null product
name: the sheet count is parsed out of the name, and validity requires it. -/
theorem productName_isSome_of_segVal {r : RawRow} {v : ℚ} (h : segVal r = some v) :
    r.productName.isSome := by
  unfold segVal at h
  by_cases hval : isValidSheets r = true
  · unfold isValidSheets at hval
    cases hts : totalSheets r with
    | none => rw [hts] at hval; simp at hval
    | some t =>
      unfold totalSheets at hts
      cases hsp : sheetsPerUnit r with
      | none => rw [hsp] at hts; simp at hts
      | some s =>
        unfold sheetsPerUnit extract_sheets_per_unit at hsp
        cases hpn : r.productName with
        | none => rw [hpn] at hsp; simp at hsp
        | some nm => simp
  · rw [if_neg hval] at h
    exact absurd h (by simp)

/-- C3: in every row of the `market_gap` output, `supply_share` is strictly
positive — each (cohort, band) group arises from at least one banded row,
banded rows always carry a product name, and the cohort-level count
dominates the group count — so the `supply_share == 0` edge case never
occurs, and the claimed implication (a null `gap_score` whenever
`supply_share` is 0, never Inf or NaN) holds for every output row. -/
theorem C3_gap_score_guard (S : ℚ → ℚ) (df : List RawRow) (g : GapRow)
    (hg : g ∈ gapRows S df) :
    0 < g.supplyShare ∧ (g.supplyShare = 0 → g.gapScore = none) := by
  obtain ⟨kb, hkb, rfl⟩ := List.mem_map.mp hg
  have hmem := List.mem_dedup.mp hkb
  obtain ⟨r, hr, hmatch⟩ := List.mem_filterMap.mp hmem
  have hrk : rowKey r = some kb.1 ∧ price_band df r = some kb.2 := by
    cases hk : rowKey r with
    | none => rw [hk] at hmatch; simp at hmatch
    | some k =>
      cases hb : price_band df r with
      | none => rw [hk, hb] at hmatch; simp at hmatch
      | some b =>
        rw [hk, hb] at hmatch
        simp only [Option.some_inj] at hmatch
        rw [← hmatch]
        exact ⟨rfl, rfl⟩
  obtain ⟨k', hk', hvs⟩ := price_band_some_elim hrk.2
  obtain ⟨v, hv⟩ := Option.isSome_iff_exists.mp hvs
  have hname : r.productName.isSome := productName_isSome_of_segVal hv
  have hrband : r ∈ bandRows df kb.1 kb.2 := by
    unfold bandRows
    exact List.mem_filter.mpr
      ⟨mem_cohortRows hr hrk.1, by simp [hrk.2]⟩
  have hitem : 1 ≤ ((bandRows df kb.1 kb.2).filter fun x => x.productName.isSome).length := by
    have : r ∈ (bandRows df kb.1 kb.2).filter fun x => x.productName.isSome :=
      List.mem_filter.mpr ⟨hrband, hname⟩
    exact List.length_pos.mpr (List.ne_nil_of_mem this)
  have hle : ((bandRows df kb.1 kb.2).filter fun x => x.productName.isSome).length ≤
      totalCount df kb.1 := by
    unfold totalCount bandRows
    rw [List.filter_comm]
    exact List.length_filter_le _ _
  have hshare : 0 < (((bandRows df kb.1 kb.2).filter fun x => x.productName.isSome).length : ℚ) /
      (totalCount df kb.1 : ℚ) := by
    apply div_pos
    · exact_mod_cast hitem
    · exact_mod_cast lt_of_lt_of_le hitem hle
  refine ⟨hshare, fun h => absurd h (ne_of_gt hshare)⟩

/-- C3 witness: the theorem applied to a concrete row of the market-gap
output of the two-row input. -/
theorem C3_gap_score_guard_witness :
    0 < (⟨"W", "A", "P0-20", 1, 1, 1, 2, 2, some (1/2), 1/2, some 1⟩ : GapRow).supplyShare ∧
    ((⟨"W", "A", "P0-20", 1, 1, 1, 2, 2, some (1/2), 1/2, some 1⟩ : GapRow).supplyShare = 0 →
      (⟨"W", "A", "P0-20", 1, 1, 1, 2, 2, some (1/2), 1/2, some 1⟩ : GapRow).gapScore = none) :=
  C3_gap_score_guard id dfTwo _ (by decide)

/-! ### C5 -/

theorem sumO_map_getD {α : Type} (l : List α) (f : α → Option ℚ) :
    sumO (l.map f) = (l.map fun x => (f x).getD 0).sum := by
  induction l with
  | nil => rfl
  | cons x xs ih =>
    cases hx : f x <;> simp [sumO, List.filterMap_cons, hx] at ih ⊢ <;> rw [ih]

theorem sumO_map_some {β : Type} (l : List β) (h : β → ℚ) :
    sumO (l.map fun b => some (h b)) = (l.map h).sum := by
  induction l with
  | nil => rfl
  | cons x xs ih => simp [sumO, List.filterMap_cons] at ih ⊢; rw [ih]

theorem sum_map_div {β : Type} (l : List β) (h : β → ℚ) (c : ℚ) :
    (l.map fun b => h b / c).sum = (l.map h).sum / c := by
  induction l with
  | nil => simp
  | cons x xs ih => simp [ih, add_div]

/-- Summing a fiberwise aggregate over the distinct values of `f` recovers
the aggregate over the whole list (with multiplicity). -/
theorem sum_fiber {α β : Type} [DecidableEq β] (l : List α) (f : α → β) (g : α → ℚ) :
    ∑ b in (l.map f).toFinset, ((l.filter fun r => f r = b).map g).sum = (l.map g).sum := by
  induction l with
  | nil => simp
  | cons x xs ih =>
    have hsplit : ∀ b, (((x :: xs).filter fun r => f r = b).map g).sum =
        (if f x = b then g x else 0) + ((xs.filter fun r => f r = b).map g).sum := by
      intro b
      by_cases h : f x = b <;> simp [List.filter_cons, h]
    simp only [List.map_cons, List.toFinset_cons]
    rw [Finset.sum_congr rfl fun b _ => hsplit b, Finset.sum_add_distrib]
    have h1 : (∑ b in insert (f x) (xs.map f).toFinset,
        if f x = b then g x else 0) = g x := by
      rw [Finset.sum_ite_eq]
      simp
    rw [h1]
    by_cases hx : f x ∈ (xs.map f).toFinset
    · rw [Finset.insert_eq_self.mpr hx, ih, List.sum_cons]
    · rw [Finset.sum_insert hx]
      have hzero : ((xs.filter fun r => f r = f x).map g).sum = 0 := by
        have hnil : xs.filter (fun r => f r = f x) = [] := by
          rw [List.filter_eq_nil_iff]
          intro a ha
          simp only [decide_eq_true_eq]
          intro hfa
          exact hx (List.mem_toFinset.mpr (List.mem_map.mpr ⟨a, ha, hfa⟩))
        rw [hnil]
        rfl
      rw [hzero, zero_add, ih, List.sum_cons]

theorem sum_dedup_map {β : Type} [DecidableEq β] (l : List β) (h : β → ℚ) :
    (l.dedup.map h).sum = ∑ b in l.toFinset, h b := by
  induction l with
  | nil => simp
  | cons x xs ih =>
    by_cases hx : x ∈ xs
    · rw [List.dedup_cons_of_mem hx, List.toFinset_cons,
        Finset.insert_eq_self.mpr (List.mem_toFinset.mpr hx), ih]
    · rw [List.dedup_cons_of_not_mem hx, List.toFinset_cons, List.map_cons,
        List.sum_cons, Finset.sum_insert (by simp [hx]), ih]

/-- The brand-fiber sums of any weight column add up to the cohort total. -/
theorem brand_fiber_sum (l : List RawRow) (w : RawRow → Option ℚ) :
    (((l.map brandName).dedup).map fun b =>
      sumO ((l.filter fun r => brandName r = b).map w)).sum = sumO (l.map w) := by
  rw [sum_dedup_map]
  have hcongr : ∀ b ∈ (l.map brandName).toFinset,
      sumO ((l.filter fun r => brandName r = b).map w) =
      ((l.filter fun r => brandName r = b).map fun x => (w x).getD 0).sum :=
    fun b _ => sumO_map_getD _ _
  rw [Finset.sum_congr rfl hcongr, sum_fiber l brandName fun x => (w x).getD 0,
    ← sumO_map_getD]

/-- C5 counterexample: in the one-row cohort whose row has a null
`page_rank`, both rank-weight totals are 0, the single brand's weighted
shares are NaN (`0/0`), and the sums over the cohort's brands are 0, not 1. -/
theorem C5_counterexample :
    totalWeightInv dfNoRank ("W", "A") = 0 ∧
    totalWeightInvSqrt id dfNoRank ("W", "A") = 0 ∧
    brandsOf dfNoRank ("W", "A") = ["B"] ∧
    ((brandsOf dfNoRank ("W", "A")).map fun b =>
      weightedSovInvRank dfNoRank ("W", "A") b) = [none] ∧
    ((brandsOf dfNoRank ("W", "A")).map fun b =>
      weightedSovInvSqrt id dfNoRank ("W", "A") b) = [none] ∧
    sumO ((brandsOf dfNoRank ("W", "A")).map fun b =>
      weightedSovInvRank dfNoRank ("W", "A") b) = 0 ∧
    sumO ((brandsOf dfNoRank ("W", "A")).map fun b =>
      weightedSovInvSqrt id dfNoRank ("W", "A") b) = 0 ∧
    (0 : ℚ) ≠ 1 := by
  decide

/-- C5 (amended): for any cohort whose rank-weight totals are non-zero (some
row has a positive `page_rank`), the `weighted_sov_inv_rank` values summed
over the cohort's brands equal exactly 1, and likewise for
`weighted_sov_inv_sqrt`; a cohort with zero totals instead has all-NaN
shares, whose sum is not 1. -/
theorem C5_sov_sums_to_one (S : ℚ → ℚ) (df : List RawRow) (k : Key)
    (h1 : totalWeightInv df k ≠ 0) (h2 : totalWeightInvSqrt S df k ≠ 0) :
    sumO ((brandsOf df k).map fun b => weightedSovInvRank df k b) = 1 ∧
    sumO ((brandsOf df k).map fun b => weightedSovInvSqrt S df k b) = 1 := by
  constructor
  · have hmap : ((brandsOf df k).map fun b => weightedSovInvRank df k b) =
        (brandsOf df k).map fun b =>
          some (brandWeightInv df k b / totalWeightInv df k) := by
      apply List.map_congr_left
      intro b _
      unfold weightedSovInvRank
      rw [if_neg h1]
    rw [hmap, sumO_map_some, sum_map_div]
    have hsum : ((brandsOf df k).map fun b => brandWeightInv df k b).sum =
        totalWeightInv df k := by
      unfold brandsOf brandWeightInv brandRows totalWeightInv
      exact brand_fiber_sum (cohortRows df k) weightInv
    rw [hsum, div_self h1]
  · have hmap : ((brandsOf df k).map fun b => weightedSovInvSqrt S df k b) =
        (brandsOf df k).map fun b =>
          some (brandWeightInvSqrt S df k b / totalWeightInvSqrt S df k) := by
      apply List.map_congr_left
      intro b _
      unfold weightedSovInvSqrt
      rw [if_neg h2]
    rw [hmap, sumO_map_some, sum_map_div]
    have hsum : ((brandsOf df k).map fun b => brandWeightInvSqrt S df k b).sum =
        totalWeightInvSqrt S df k := by
      unfold brandsOf brandWeightInvSqrt brandRows totalWeightInvSqrt
      exact brand_fiber_sum (cohortRows df k) (weightInvSqrt S)
    rw [hsum, div_self h2]

/-- C5 witness: the amended statement on the two-row one-brand cohort with
both page ranks 1. -/
theorem C5_sov_sums_to_one_witness :
    sumO ((brandsOf dfTwo ("W", "A")).map fun b =>
      weightedSovInvRank dfTwo ("W", "A") b) = 1 ∧
    sumO ((brandsOf dfTwo ("W", "A")).map fun b =>
      weightedSovInvSqrt id dfTwo ("W", "A") b) = 1 :=
  C5_sov_sums_to_one id dfTwo ("W", "A") (by decide) (by decide)

/-! ### C6 -/

theorem corrRowFor_week (L : ℚ → ℚ) (stat) (df : List RawRow) (k : Key) :
    (corrRowFor L stat df k).week = k.1 := by
  by_cases h : (corrSubset L df k).length < 2 <;> simp [corrRowFor, h]

theorem corrRowFor_category (L : ℚ → ℚ) (stat) (df : List RawRow) (k : Key) :
    (corrRowFor L stat df k).category = k.2 := by
  by_cases h : (corrSubset L df k).length < 2 <;> simp [corrRowFor, h]

theorem filter_eq_length_one {α : Type} [DecidableEq α] {l : List α} {a : α}
    (hn : l.Nodup) (ha : a ∈ l) : (l.filter fun x => x = a).length = 1 := by
  induction l with
  | nil => cases ha
  | cons x xs ih =>
    by_cases hax : x = a
    · subst hax
      have hnotin : x ∉ xs := (List.nodup_cons.mp hn).1
      have hnil : xs.filter (fun y => y = x) = [] := by
        rw [List.filter_eq_nil_iff]
        intro b hb
        simp only [decide_eq_true_eq]
        rintro rfl
        exact hnotin hb
      simp [List.filter_cons, hnil]
    · have ha' : a ∈ xs := by
        rcases List.mem_cons.mp ha with h | h
        · exact absurd h.symm hax
        · exact h
      simp only [List.filter_cons, decide_eq_true_eq]
      rw [if_neg hax]
      exact ih (List.nodup_cons.mp hn).2 ha'

/-- C6: every cohort of the input yields exactly one row of the correlation
output (keyed by its week and category group), every output row belongs to a
cohort, and a row whose dropna sample size is below 2 carries all six
statistics as null — the cohort is emitted, not skipped. Proved for every
interpretation `stat` of the scipy statistics. -/
theorem C6_corr_rows (L : ℚ → ℚ)
    (stat : List (ℚ × ℚ) → Option ℚ × Option ℚ × Option ℚ × Option ℚ × Option ℚ × Option ℚ)
    (df : List RawRow) (k : Key) (hk : k ∈ cohortKeys df) :
    ((corrRows L stat df).filter fun row =>
      row.week = k.1 ∧ row.category = k.2).length = 1 ∧
    (∀ row ∈ corrRows L stat df, (row.week, row.category) ∈ cohortKeys df) ∧
    (∀ row ∈ corrRows L stat df, row.n < 2 →
      row.spearmanCorr = none ∧ row.spearmanP = none ∧ row.kendallCorr = none ∧
      row.kendallP = none ∧ row.slope = none ∧ row.r2 = none) := by
  refine ⟨?_, ?_, ?_⟩
  · unfold corrRows
    rw [List.filter_map, List.length_map]
    have hcongr : ∀ k' ∈ cohortKeys df,
        (decide ((corrRowFor L stat df k').week = k.1 ∧
          (corrRowFor L stat df k').category = k.2) : Bool) = decide (k' = k) := by
      intro k' _
      rw [corrRowFor_week, corrRowFor_category]
      apply decide_eq_decide.mpr
      constructor
      · rintro ⟨h1, h2⟩
        exact Prod.ext h1 h2
      · rintro rfl
        exact ⟨rfl, rfl⟩
    simp only [Function.comp_def]
    rw [List.filter_congr hcongr]
    exact filter_eq_length_one (List.nodup_dedup _) hk
  · intro row hrow
    obtain ⟨k', hk', rfl⟩ := List.mem_map.mp hrow
    rw [corrRowFor_week, corrRowFor_category]
    exact hk'
  · intro row hrow hn
    obtain ⟨k', _, rfl⟩ := List.mem_map.mp hrow
    by_cases h : (corrSubset L df k').length < 2
    · simp [corrRowFor, h]
    · simp [corrRowFor, h] at hn

/-- C6 witness: the single-cohort input `dfNoRank` has correlation sample
size 0 and one all-null output row, under the trivial statistics
interpretation. -/
theorem C6_corr_rows_witness :
    ((corrRows id (fun _ => (none, none, none, none, none, none)) dfNoRank).filter
      fun row => row.week = "W" ∧ row.category = "A").length = 1 ∧
    (∀ row ∈ corrRows id (fun _ => (none, none, none, none, none, none)) dfNoRank,
      (row.week, row.category) ∈ cohortKeys dfNoRank) ∧
    (∀ row ∈ corrRows id (fun _ => (none, none, none, none, none, none)) dfNoRank,
      row.n < 2 →
      row.spearmanCorr = none ∧ row.spearmanP = none ∧ row.kendallCorr = none ∧
      row.kendallP = none ∧ row.slope = none ∧ row.r2 = none) :=
  C6_corr_rows id (fun _ => (none, none, none, none, none, none)) dfNoRank
    ("W", "A") (by decide)

/-! ### C10 -/

theorem rowKey_none_of {r : RawRow} (h : normalize_category r = none) :
    rowKey r = none := by
  unfold rowKey
  rw [h]
  rfl

theorem filterMap_filter_of_none {α β : Type} (p : α → Bool) (f : α → Option β)
    (h : ∀ r, p r = false → f r = none) (l : List α) :
    (l.filter p).filterMap f = l.filterMap f := by
  induction l with
  | nil => rfl
  | cons x xs ih =>
    by_cases hp : p x = true
    · simp [List.filter_cons, hp, List.filterMap_cons, ih]
    · have hf := h x (by revert hp; cases p x <;> simp)
      simp [List.filter_cons, hp, List.filterMap_cons, hf, ih]

theorem cohortRows_dfValid (df : List RawRow) (k : Key) :
    cohortRows (dfValid df) k = cohortRows df k := by
  unfold cohortRows dfValid
  rw [List.filter_filter]
  apply List.filter_congr
  intro r _
  by_cases h : rowKey r = some k
  · have hsome : (normalize_category r).isSome = true := by
      cases hnc : normalize_category r
      · rw [rowKey_none_of hnc] at h; cases h
      · rfl
    simp [h, hsome]
  · simp [h]

theorem cohortKeys_dfValid (df : List RawRow) :
    cohortKeys (dfValid df) = cohortKeys df := by
  unfold cohortKeys dfValid
  rw [filterMap_filter_of_none _ rowKey]
  intro r hp
  apply rowKey_none_of
  cases hnc : normalize_category r
  · rfl
  · rw [hnc] at hp; cases hp

theorem segVals_dfValid (df : List RawRow) (k : Key) :
    segVals (dfValid df) k = segVals df k := by
  unfold segVals; rw [cohortRows_dfValid]

theorem logVals_dfValid (L : ℚ → ℚ) (df : List RawRow) (k : Key) :
    logVals L (dfValid df) k = logVals L df k := by
  unfold logVals; rw [cohortRows_dfValid]

theorem p50_dfValid (df : List RawRow) (k : Key) : p50 (dfValid df) k = p50 df k := by
  unfold p50; rw [segVals_dfValid]

theorem p85_dfValid (df : List RawRow) (k : Key) : p85 (dfValid df) k = p85 df k := by
  unfold p85; rw [segVals_dfValid]

theorem bandCuts_dfValid (df : List RawRow) (k : Key) :
    bandCuts (dfValid df) k = bandCuts df k := by
  unfold bandCuts; rw [segVals_dfValid]

theorem q1Of_dfValid (L : ℚ → ℚ) (df : List RawRow) (k : Key) :
    q1Of L (dfValid df) k = q1Of L df k := by
  unfold q1Of; rw [logVals_dfValid]

theorem q3Of_dfValid (L : ℚ → ℚ) (df : List RawRow) (k : Key) :
    q3Of L (dfValid df) k = q3Of L df k := by
  unfold q3Of; rw [logVals_dfValid]

theorem iqrOf_dfValid (L : ℚ → ℚ) (df : List RawRow) (k : Key) :
    iqrOf L (dfValid df) k = iqrOf L df k := by
  unfold iqrOf; rw [q1Of_dfValid, q3Of_dfValid]

theorem lowerBoundOf_dfValid (L : ℚ → ℚ) (df : List RawRow) (k : Key) :
    lowerBoundOf L (dfValid df) k = lowerBoundOf L df k := by
  unfold lowerBoundOf; rw [q1Of_dfValid, iqrOf_dfValid]

theorem upperBoundOf_dfValid (L : ℚ → ℚ) (df : List RawRow) (k : Key) :
    upperBoundOf L (dfValid df) k = upperBoundOf L df k := by
  unfold upperBoundOf; rw [q3Of_dfValid, iqrOf_dfValid]

theorem rowLower_dfValid (L : ℚ → ℚ) (df : List RawRow) (r : RawRow) :
    rowLower L (dfValid df) r = rowLower L df r := by
  unfold rowLower
  cases rowKey r
  · rfl
  · simp [lowerBoundOf_dfValid]

theorem rowUpper_dfValid (L : ℚ → ℚ) (df : List RawRow) (r : RawRow) :
    rowUpper L (dfValid df) r = rowUpper L df r := by
  unfold rowUpper
  cases rowKey r
  · rfl
  · simp [upperBoundOf_dfValid]

theorem is_outlier_iqr_dfValid (L : ℚ → ℚ) (df : List RawRow) (r : RawRow) :
    is_outlier_iqr L (dfValid df) r = is_outlier_iqr L df r := by
  unfold is_outlier_iqr
  rw [rowLower_dfValid, rowUpper_dfValid]

theorem segment_dfValid (df : List RawRow) (r : RawRow) :
    segment (dfValid df) r = segment df r := by
  unfold segment
  simp only [p50_dfValid, p85_dfValid]

theorem price_band_dfValid (df : List RawRow) (r : RawRow) :
    price_band (dfValid df) r = price_band df r := by
  unfold price_band
  simp only [bandCuts_dfValid]

theorem zLog_dfValid (L S : ℚ → ℚ) (df : List RawRow) (r : RawRow) :
    zLog L S (dfValid df) r = zLog L S df r := by
  unfold zLog
  simp only [logVals_dfValid]

theorem robustZ_dfValid (L : ℚ → ℚ) (df : List RawRow) (r : RawRow) :
    robustZ L (dfValid df) r = robustZ L df r := by
  unfold robustZ
  simp only [logVals_dfValid]

theorem totalCount_dfValid (df : List RawRow) (k : Key) :
    totalCount (dfValid df) k = totalCount df k := by
  unfold totalCount; rw [cohortRows_dfValid]

theorem totalWeightInv_dfValid (df : List RawRow) (k : Key) :
    totalWeightInv (dfValid df) k = totalWeightInv df k := by
  unfold totalWeightInv; rw [cohortRows_dfValid]

theorem totalWeightInvSqrt_dfValid (S : ℚ → ℚ) (df : List RawRow) (k : Key) :
    totalWeightInvSqrt S (dfValid df) k = totalWeightInvSqrt S df k := by
  unfold totalWeightInvSqrt; rw [cohortRows_dfValid]

theorem brandsOf_dfValid (df : List RawRow) (k : Key) :
    brandsOf (dfValid df) k = brandsOf df k := by
  unfold brandsOf; rw [cohortRows_dfValid]

theorem brandRows_dfValid (df : List RawRow) (k : Key) (b : String) :
    brandRows (dfValid df) k b = brandRows df k b := by
  unfold brandRows; rw [cohortRows_dfValid]

theorem brandItemCount_dfValid (df : List RawRow) (k : Key) (b : String) :
    brandItemCount (dfValid df) k b = brandItemCount df k b := by
  unfold brandItemCount; rw [brandRows_dfValid]

theorem brandWeightInv_dfValid (df : List RawRow) (k : Key) (b : String) :
    brandWeightInv (dfValid df) k b = brandWeightInv df k b := by
  unfold brandWeightInv; rw [brandRows_dfValid]

theorem brandWeightInvSqrt_dfValid (S : ℚ → ℚ) (df : List RawRow) (k : Key) (b : String) :
    brandWeightInvSqrt S (dfValid df) k b = brandWeightInvSqrt S df k b := by
  unfold brandWeightInvSqrt; rw [brandRows_dfValid]

theorem sovOf_dfValid (df : List RawRow) (k : Key) (b : String) :
    sovOf (dfValid df) k b = sovOf df k b := by
  unfold sovOf; rw [totalCount_dfValid, brandItemCount_dfValid]

theorem weightedSovInvRank_dfValid (df : List RawRow) (k : Key) (b : String) :
    weightedSovInvRank (dfValid df) k b = weightedSovInvRank df k b := by
  unfold weightedSovInvRank; rw [totalWeightInv_dfValid, brandWeightInv_dfValid]

theorem weightedSovInvSqrt_dfValid (S : ℚ → ℚ) (df : List RawRow) (k : Key) (b : String) :
    weightedSovInvSqrt S (dfValid df) k b = weightedSovInvSqrt S df k b := by
  unfold weightedSovInvSqrt; rw [totalWeightInvSqrt_dfValid, brandWeightInvSqrt_dfValid]

theorem corrSubset_dfValid (L : ℚ → ℚ) (df : List RawRow) (k : Key) :
    corrSubset L (dfValid df) k = corrSubset L df k := by
  unfold corrSubset; rw [cohortRows_dfValid]

theorem corrRows_dfValid (L : ℚ → ℚ) (stat) (df : List RawRow) :
    corrRows L stat (dfValid df) = corrRows L stat df := by
  unfold corrRows corrRowFor
  rw [cohortKeys_dfValid]
  simp only [corrSubset_dfValid]

theorem sovRows_dfValid (S : ℚ → ℚ) (df : List RawRow) :
    sovRows S (dfValid df) = sovRows S df := by
  unfold sovRows
  rw [cohortKeys_dfValid]
  simp only [brandsOf_dfValid, brandItemCount_dfValid, brandWeightInv_dfValid,
    brandWeightInvSqrt_dfValid, sovOf_dfValid, weightedSovInvRank_dfValid,
    weightedSovInvSqrt_dfValid]

theorem bandKeys_dfValid (df : List RawRow) :
    bandKeys (dfValid df) = bandKeys df := by
  unfold bandKeys
  simp only [price_band_dfValid]
  unfold dfValid
  rw [filterMap_filter_of_none]
  intro r hp
  have hk : rowKey r = none := by
    apply rowKey_none_of
    cases hnc : normalize_category r
    · rfl
    · rw [hnc] at hp; cases hp
  rw [hk]

theorem bandRows_dfValid (df : List RawRow) (k : Key) (b : String) :
    bandRows (dfValid df) k b = bandRows df k b := by
  unfold bandRows
  rw [cohortRows_dfValid]
  simp only [price_band_dfValid]

theorem gapRows_dfValid (S : ℚ → ℚ) (df : List RawRow) :
    gapRows S (dfValid df) = gapRows S df := by
  unfold gapRows
  rw [bandKeys_dfValid]
  simp only [bandRows_dfValid, totalWeightInvSqrt_dfValid, totalCount_dfValid]

theorem keywordRows_dfValid (df : List RawRow) :
    keywordRows (dfValid df) = keywordRows df := by
  unfold keywordRows
  rw [cohortKeys_dfValid]
  simp only [cohortRows_dfValid]

theorem dataQuality_dfValid (L : ℚ → ℚ) (df : List RawRow) :
    dataQuality L (dfValid df) = dataQuality L df := by
  unfold dataQuality
  rw [cohortKeys_dfValid]
  simp only [cohortRows_dfValid, totalCount_dfValid, is_outlier_iqr_dfValid]

/-- C10: a row with a null `category_group` is retained in the full
normalized table with all cohort-dependent fields null (its `clean_long` row
is exactly the raw row with null z-scores, segment, price band and fences,
and a false outlier flag), and the per-cohort outputs — correlation, brand
share, market gap, keywords and data quality — are unchanged when all such
rows are removed from the input: they neither contribute to nor appear in any
per-cohort table. -/
theorem C10_null_category_rows (L S : ℚ → ℚ)
    (stat : List (ℚ × ℚ) → Option ℚ × Option ℚ × Option ℚ × Option ℚ × Option ℚ × Option ℚ)
    (df : List RawRow) (r : RawRow)
    (hr : r ∈ df) (hnc : normalize_category r = none) :
    (⟨r, none, none, none, none, none, none, false⟩ : CleanRow) ∈ cleanLong L S df ∧
    corrRows L stat (dfValid df) = corrRows L stat df ∧
    sovRows S (dfValid df) = sovRows S df ∧
    gapRows S (dfValid df) = gapRows S df ∧
    keywordRows (dfValid df) = keywordRows df ∧
    dataQuality L (dfValid df) = dataQuality L df := by
  have hk : rowKey r = none := rowKey_none_of hnc
  refine ⟨?_, corrRows_dfValid L stat df, sovRows_dfValid S df, gapRows_dfValid S df,
    keywordRows_dfValid df, dataQuality_dfValid L df⟩
  unfold cleanLong
  apply List.mem_map.mpr
  refine ⟨r, hr, ?_⟩
  have h1 : zLog L S df r = none := by unfold zLog; rw [hk]
  have h2 : robustZ L df r = none := by unfold robustZ; rw [hk]
  have h3 : segment df r = none := segment_none_of_key hk
  have h4 : price_band df r = none := by unfold price_band; rw [hk]
  have h5 : rowLower L df r = none := by unfold rowLower; rw [hk]; rfl
  have h6 : rowUpper L df r = none := by unfold rowUpper; rw [hk]; rfl
  have h7 : is_outlier_iqr L df r = false := by
    unfold is_outlier_iqr
    rw [h5, h6]
    cases logUnitPrice L r <;> rfl
  rw [h1, h2, h3, h4, h5, h6, h7]

/-- C10 witness: on a two-row input whose second row has both category
fields empty, the null-category row appears all-null in `clean_long` and the
per-cohort outputs are unchanged by its removal. -/
theorem C10_null_category_rows_witness :
    (⟨rNoCat, none, none, none, none, none, none, false⟩ : CleanRow) ∈
      cleanLong id id [mkRow 100, rNoCat] ∧
    corrRows id (fun _ => (none, none, none, none, none, none))
        (dfValid [mkRow 100, rNoCat]) =
      corrRows id (fun _ => (none, none, none, none, none, none)) [mkRow 100, rNoCat] ∧
    sovRows id (dfValid [mkRow 100, rNoCat]) = sovRows id [mkRow 100, rNoCat] ∧
    gapRows id (dfValid [mkRow 100, rNoCat]) = gapRows id [mkRow 100, rNoCat] ∧
    keywordRows (dfValid [mkRow 100, rNoCat]) = keywordRows [mkRow 100, rNoCat] ∧
    dataQuality id (dfValid [mkRow 100, rNoCat]) = dataQuality id [mkRow 100, rNoCat] :=
  C10_null_category_rows id id (fun _ => (none, none, none, none, none, none))
    [mkRow 100, rNoCat] rNoCat (by decide) (by decide)

end BuildOutputs
